import Mathlib

/-!
Verification of the Tweetcord bootstrap orchestrator (`src/bot.py`).

The file shallowly embeds the behaviour of `bot.py`:

* `on_ready` — the bootstrap sequence (store init, env check, config check,
  database consistency check with optional auto repair, presence update,
  extension loading loop, tree sync) — modelled as a function from an
  abstract `BootEnv` (the facts the handler observes: whether the store file
  exists, the results of the checks, the listing of `./cogs`, and which
  extension loads succeed) to a trace of observable events plus an outcome.
* `handle_web` — the aiohttp status route, which returns a fixed HTML page.
* `main` — the supervisor: start web server, run the bot inside
  `try/finally`, clean the runner up on every exit path.
* `upload_data`, `on_command_error`, `on_tree_error` — administrative
  command paths.

Python exceptions are modelled explicitly: an exception raised by
`bot.load_extension` inside the `on_ready` loop propagates, so the handler
stops (outcome `crashed`); `os.execv` replaces the process image (outcome
`restart`); the `[0]` index on an empty list in `upload_data` is an
`Except.error`.
-/

namespace Tweetcord

/-- Log levels used by the bot's logger. -/
inductive LogLevel
  | info
  | warning
deriving DecidableEq, Repr

/-- Result of loading one extension (`bot.load_extension` succeeding or raising). -/
inductive LoadResult
  | ok
  | err
deriving DecidableEq, Repr

/-- Observable events of the bootstrap sequence in `on_ready`.  `checkDb`
carries the list of invalid records returned by `check_db` (records are
abstracted as natural-number identifiers); `repair` carries the records
passed to `auto_repair_mismatched_clients`. -/
inductive Event
  | initDb
  | checkUpgrade
  | checkEnv (result : Bool)
  | logWarning (msg : String)
  | logInfo (msg : String)
  | sleep (seconds : Nat)
  | reloadDotenv
  | checkConfigs (result : Bool)
  | execvRestart
  | checkDb (invalid : List Nat)
  | repair (records : List Nat)
  | updatePresence
  | setTreeErrorHandler
  | loadExtension (name : String) (result : LoadResult)
  | logBotOnline
  | treeSync
  | logSyncSummary
deriving DecidableEq, Repr

/-- How one run of the `on_ready` handler ends: `ready` (reached the final
`tree.sync`, carrying the per-extension load results), `restart`
(`os.execv` replaced the process), or `crashed` (an extension load raised
and the exception propagated out of the handler). -/
inductive BootOutcome
  | ready (results : List LoadResult)
  | restart
  | crashed (results : List LoadResult)
deriving DecidableEq, Repr

/-- The facts one run of `on_ready` observes about its surroundings:
whether `DATA_PATH/tracked_accounts.db` exists, the boolean results of
`check_env` and `check_configs`, the invalid records `check_db` returns,
the `auto_repair_mismatched_clients` config flag, and the directory listing
of `./cogs` paired with whether loading that file would succeed. -/
structure BootEnv where
  storeExists : Bool
  envOk : Bool
  configsOk : Bool
  invalidClients : List Nat
  autoRepair : Bool
  extensions : List (String × Bool)
deriving DecidableEq, Repr

/-- Python's suffix test: `s.endswith(suffix)`, equivalently
`s[-len(suffix):] == suffix` — the last `len(suffix)` characters of `s`
equal `suffix` (false whenever `s` is shorter than `suffix`). -/
def endsIn (s suffix : String) : Bool :=
  List.drop (s.data.length - suffix.data.length) s.data == suffix.data

/-- Python's `s[:-n]`: all characters of `s` but the last `n` (empty when
`s` has at most `n` characters). -/
def dropLastChars (n : Nat) (s : String) : String :=
  ⟨s.data.take (s.data.length - n)⟩

/-- `log.warning('incomplete environment variables detected, ...')` in `on_ready`. -/
def envWarning : String :=
  "incomplete environment variables detected, will retry in 30 seconds"

/-- `log.warning('incomplete configs file detected, ...')` in `on_ready`. -/
def configsWarning : String :=
  "incomplete configs file detected, will retry in 30 seconds"

/-- `log.warning('detected environment variable undefined client name in database')`. -/
def mismatchWarning : String :=
  "detected environment variable undefined client name in database"

/-- The `log.info` message after `auto_repair_mismatched_clients` runs. -/
def autoRepairInfo : String :=
  "automatically replace mismatched client names with the first client name in the environment variable, use the sync slash command in discord to ensure notifications are turned on"

/-- The `log.warning` message when auto repair is disabled. -/
def noAutoRepairWarning : String :=
  "set auto_repair_mismatched_clients to true in configs to automatically fix this error or manually update the database or environment variables"

/-- `log.info('database check passed')`. -/
def dbPassedInfo : String :=
  "database check passed"

/-- Lines 78-79 of `bot.py`: `if not os.path.isfile(...): await init_db()`. -/
def storeEvents (storeExists : Bool) : List Event :=
  if storeExists then [] else [Event.initDb]

/-- Lines 83-86 of `bot.py`: call `check_env()`; when it is false, log a
warning, `await asyncio.sleep(30)` and `load_dotenv()`.  The code does not
call `check_env` a second time. -/
def envEvents (envOk : Bool) : List Event :=
  if envOk then
    [Event.checkEnv true]
  else
    [Event.checkEnv false, Event.logWarning envWarning, Event.sleep 30,
     Event.reloadDotenv]

/-- Lines 93-102 of `bot.py`: `invalid_clients = await check_db()`; when
non-empty, warn and either repair (auto repair enabled, then log info) or
warn again (disabled); when empty, log `database check passed`. -/
def dbEvents (invalid : List Nat) (autoRepair : Bool) : List Event :=
  Event.checkDb invalid ::
    (if invalid.isEmpty then
      [Event.logInfo dbPassedInfo]
    else
      Event.logWarning mismatchWarning ::
        (if autoRepair then
          [Event.repair invalid, Event.logInfo autoRepairInfo]
        else
          [Event.logWarning noAutoRepairWarning]))

/-- Lines 107-109 of `bot.py`:

    for filename in os.listdir('./cogs'):
        if filename.endswith('.py'):
            await bot.load_extension(f'cogs.{filename[:-3]}')

Each list entry is a directory-listing name paired with whether loading it
would succeed.  A failing `load_extension` raises, so the loop (and the
rest of the handler) stops: the third component is `true` iff the loop ran
to completion.  The first component is the emitted events, the second the
sequence of per-extension load results observed. -/
def loadExtensions : List (String × Bool) → List Event × List LoadResult × Bool
  | [] => ([], [], true)
  | (filename, succ) :: rest =>
    if endsIn filename ".py" then
      if succ then
        let r := loadExtensions rest
        (Event.loadExtension ("cogs." ++ dropLastChars 3 filename) LoadResult.ok :: r.1,
         LoadResult.ok :: r.2.1, r.2.2)
      else
        ([Event.loadExtension ("cogs." ++ dropLastChars 3 filename) LoadResult.err],
         [LoadResult.err], false)
    else
      loadExtensions rest

/-- Lines 77-112 of `bot.py`: the whole `on_ready` handler.  Returns the
event trace together with the outcome of the run. -/
def on_ready (e : BootEnv) : List Event × BootOutcome :=
  let pre := storeEvents e.storeExists ++ [Event.checkUpgrade] ++ envEvents e.envOk
  if e.configsOk then
    let mid := pre ++ [Event.checkConfigs true]
      ++ dbEvents e.invalidClients e.autoRepair
      ++ [Event.updatePresence, Event.setTreeErrorHandler]
    let L := loadExtensions e.extensions
    if L.2.2 then
      (mid ++ L.1 ++ [Event.logBotOnline, Event.treeSync, Event.logSyncSummary],
       BootOutcome.ready L.2.1)
    else
      (mid ++ L.1, BootOutcome.crashed L.2.1)
  else
    (pre ++ [Event.checkConfigs false, Event.logWarning configsWarning,
             Event.sleep 30, Event.execvRestart],
     BootOutcome.restart)

/-- Observer: the extension loads attempted in a trace, in order. -/
def loadOf : Event → Option (String × LoadResult)
  | Event.loadExtension n r => some (n, r)
  | _ => none

/-- Observer: all `loadExtension` events of a trace, in order. -/
def attemptedLoads (evs : List Event) : List (String × LoadResult) :=
  evs.filterMap loadOf

/-- Observer: is an event an invocation of `check_env`? -/
def isEnvCheck : Event → Bool
  | Event.checkEnv _ => true
  | _ => false

/-- The directory entries of `./cogs` that pass the `endswith('.py')` filter. -/
def pyEntries (l : List (String × Bool)) : List (String × Bool) :=
  l.filter (fun p => endsIn p.1 ".py")

/-- Lines 25-57 of `bot.py`: the fixed HTML document built inside `handle_web`. -/
def statusHtml : String :=
  "
    <!DOCTYPE html>
    <html>
        <head>
            <title>Discord Bot Status</title>
            <style>
                body \x7b
                    font-family: Arial, sans-serif;
                    margin: 40px;
                    line-height: 1.6;
                    background: #f5f5f5;
                \x7d
                .container \x7b
                    background: white;
                    padding: 20px;
                    border-radius: 8px;
                    box-shadow: 0 2px 4px rgba(0,0,0,0.1);
                    max-width: 600px;
                    margin: 0 auto;
                \x7d
                h1 \x7b color: #5865F2; \x7d
                .status \x7b color: #43B581; \x7d
            </style>
        </head>
        <body>
            <div class=\"container\">
                <h1>Discord Bot Status</h1>
                <p class=\"status\">✅ Bot is running!</p>
                <p>This is the status page for the Discord bot.</p>
            </div>
        </body>
    </html>
    "

set_option linter.unusedVariables false in
/-- Lines 24-58 of `bot.py`: the `handle_web` route handler.  The parameter
is the readiness state of the process at the time of the request (has the
bootstrap sequence completed?); the handler body consults no state at all
and returns the fixed page. -/
def handle_web (bootstrapCompleted : Bool) : String :=
  statusHtml

/-- Events of the supervisor `main` in `bot.py`. -/
inductive MainEvent
  | webStart
  | botRun
  | webCleanup
deriving DecidableEq, Repr

/-- Lines 71-74 of `bot.py`: `run_bot` runs the bot; the parameter says
whether the bot task ends by raising an exception. -/
def run_bot (raises : Bool) : List MainEvent × Bool :=
  ([MainEvent.botRun], raises)

/-- `try/finally` over event-producing computations: the finaliser events
run whether or not the body raised, and a raised exception still
propagates afterwards. -/
def tryFinally (body : List MainEvent × Bool) (fin : List MainEvent) :
    List MainEvent × Bool :=
  (body.1 ++ fin, body.2)

/-- Lines 175-182 of `bot.py`: `main` starts the web server, then runs the
bot inside `try: ... finally: await runner.cleanup()`.  The first component
is the event trace, the second whether the process exits with a propagated
exception. -/
def main (botRaises : Bool) : List MainEvent × Bool :=
  tryFinally ([MainEvent.webStart] ++ (run_bot botRaises).1, (run_bot botRaises).2)
    [MainEvent.webCleanup]

/-- A message attachment: filename and raw content bytes. -/
structure Attachment where
  filename : String
  content : List Nat
deriving DecidableEq, Repr

/-- Line 153 of `bot.py`: the list comprehension
`[attachment for attachment in ctx.message.attachments if attachment.filename[-3:] == '.db']`.
For a 3-character suffix, Python's `filename[-3:] == '.db'` is the
ends-with test. -/
def dbAttachments (atts : List Attachment) : List Attachment :=
  atts.filter (fun a => endsIn a.filename ".db")

/-- Lines 150-157 of `bot.py`: `upload_data`.  Indexing `[0]` into an
empty comprehension raises `IndexError` before the store file is opened,
so the store is unchanged; otherwise the store file is opened with mode
`wb` and overwritten with the raw bytes of the first matching attachment.
Returns the new store content and whether the command raised. -/
def upload_data (store : List Nat) (atts : List Attachment) :
    List Nat × Except String Unit :=
  match dbAttachments atts with
  | [] => (store, Except.error "IndexError")
  | a :: _ => (a.content, Except.ok ())

/-- What an error handler does: the message echoed to the invoking
operator (if any) and the log entry written (if any). -/
structure ErrorReport where
  echoed : Option String
  logged : Option (LogLevel × String)
deriving DecidableEq, Repr

/-- Lines 166-172 of `bot.py`: `on_command_error`.  A `CommandNotFound`
error returns early (nothing echoed, nothing logged); every other command
error is sent back to the operator with `ctx.send(error)` and logged at
warning level. -/
def on_command_error (isCommandNotFound : Bool) (errMsg : String) : ErrorReport :=
  if isCommandNotFound then
    { echoed := none, logged := none }
  else
    { echoed := some errMsg,
      logged := some (LogLevel.warning,
        "an error occurred but was handled by the command error handler, error message : "
          ++ errMsg) }

/-- Lines 160-163 of `bot.py`: `on_tree_error` sends the error message to
the interaction as an ephemeral response and logs it at warning level. -/
def on_tree_error (errMsg : String) : ErrorReport :=
  { echoed := some errMsg,
    logged := some (LogLevel.warning,
      "an error occurred but was handled by the tree error handler, error message : "
        ++ errMsg) }

/-! ## Helper lemmas about the extension-loading loop and the stages -/

theorem loadExtensions_events_are_loads (l : List (String × Bool)) :
    ∀ ev ∈ (loadExtensions l).1, ∃ n r, ev = Event.loadExtension n r := by
  induction l with
  | nil =>
    intro ev h
    simp [loadExtensions] at h
  | cons p rest ih =>
    intro ev h
    obtain ⟨f, s⟩ := p
    by_cases hf : endsIn f ".py" = true
    · cases s
      · simp [loadExtensions, hf] at h
        exact ⟨_, _, h⟩
      · simp [loadExtensions, hf] at h
        rcases h with h | h
        · exact ⟨_, _, h⟩
        · exact ih ev h
    · simp [loadExtensions, hf] at h
      exact ih ev h

theorem notin_loadExtensions (l : List (String × Bool)) (ev : Event)
    (h : ∀ n r, ev ≠ Event.loadExtension n r) : ev ∉ (loadExtensions l).1 := by
  intro hm
  obtain ⟨n, r, rfl⟩ := loadExtensions_events_are_loads l ev hm
  exact h n r rfl

theorem countP_isEnvCheck_loadExtensions (l : List (String × Bool)) :
    ((loadExtensions l).1.countP isEnvCheck) = 0 := by
  rw [List.countP_eq_zero]
  intro ev hm
  obtain ⟨n, r, rfl⟩ := loadExtensions_events_are_loads l ev hm
  simp [isEnvCheck]

theorem attemptedLoads_append (l₁ l₂ : List Event) :
    attemptedLoads (l₁ ++ l₂) = attemptedLoads l₁ ++ attemptedLoads l₂ :=
  List.filterMap_append l₁ l₂ loadOf

theorem attemptedLoads_storeEvents (b : Bool) :
    List.filterMap loadOf (storeEvents b) = [] := by
  cases b <;> simp [storeEvents, loadOf]

theorem attemptedLoads_envEvents (b : Bool) :
    List.filterMap loadOf (envEvents b) = [] := by
  cases b <;> simp [envEvents, loadOf]

theorem attemptedLoads_dbEvents (inv : List Nat) (r : Bool) :
    List.filterMap loadOf (dbEvents inv r) = [] := by
  cases hi : inv.isEmpty <;> cases r <;> simp [dbEvents, hi, loadOf]

theorem loadExtensions_all_ok (l : List (String × Bool))
    (h : ∀ p ∈ l, endsIn p.1 ".py" = true → p.2 = true) :
    loadExtensions l =
      ((pyEntries l).map
          (fun p => Event.loadExtension ("cogs." ++ dropLastChars 3 p.1) LoadResult.ok),
        (pyEntries l).map (fun _ => LoadResult.ok), true) := by
  induction l with
  | nil => simp [loadExtensions, pyEntries]
  | cons p rest ih =>
    obtain ⟨f, s⟩ := p
    have hrest : ∀ q ∈ rest, endsIn q.1 ".py" = true → q.2 = true :=
      fun q hq => h q (List.mem_cons_of_mem _ hq)
    by_cases hf : endsIn f ".py" = true
    · have hs : s = true := h (f, s) (List.mem_cons_self _ _) hf
      subst hs
      simp [loadExtensions, hf, ih hrest, pyEntries]
    · simp [loadExtensions, hf, ih hrest, pyEntries]

theorem loadExtensions_first_failure (pre : List (String × Bool)) (f : String)
    (post : List (String × Bool))
    (hpre : ∀ p ∈ pre, endsIn p.1 ".py" = true ∧ p.2 = true)
    (hf : endsIn f ".py" = true) :
    loadExtensions (pre ++ (f, false) :: post) =
      (pre.map
          (fun p => Event.loadExtension ("cogs." ++ dropLastChars 3 p.1) LoadResult.ok)
          ++ [Event.loadExtension ("cogs." ++ dropLastChars 3 f) LoadResult.err],
        pre.map (fun _ => LoadResult.ok) ++ [LoadResult.err], false) := by
  induction pre with
  | nil => simp [loadExtensions, hf]
  | cons p rest ih =>
    obtain ⟨g, s⟩ := p
    obtain ⟨hg, hs⟩ := hpre (g, s) (List.mem_cons_self _ _)
    subst hs
    have hrest : ∀ q ∈ rest, endsIn q.1 ".py" = true ∧ q.2 = true :=
      fun q hq => hpre q (List.mem_cons_of_mem _ hq)
    simp [loadExtensions, hg, ih hrest]

theorem attemptedLoads_map_load (l : List (String × Bool)) (r : LoadResult) :
    List.filterMap
        (loadOf ∘ fun p => Event.loadExtension ("cogs." ++ dropLastChars 3 p.1) r) l
      = l.map (fun p => ("cogs." ++ dropLastChars 3 p.1, r)) := by
  induction l with
  | nil => rfl
  | cons p rest ih => simp [loadOf, Function.comp, ih]

theorem initDb_mem_storeEvents (b : Bool) :
    Event.initDb ∈ storeEvents b ↔ b = false := by
  cases b <;> simp [storeEvents]

theorem initDb_notin_envEvents (b : Bool) : Event.initDb ∉ envEvents b := by
  cases b <;> simp [envEvents]

theorem initDb_notin_dbEvents (inv : List Nat) (r : Bool) :
    Event.initDb ∉ dbEvents inv r := by
  cases hi : inv.isEmpty <;> cases r <;> simp [dbEvents, hi]

theorem checkEnv_mem_envEvents (b : Bool) : Event.checkEnv b ∈ envEvents b := by
  cases b <;> simp [envEvents]

theorem checkEnv_notin_storeEvents (b c : Bool) :
    Event.checkEnv b ∉ storeEvents c := by
  cases c <;> simp [storeEvents]

theorem checkEnv_notin_dbEvents (b : Bool) (inv : List Nat) (r : Bool) :
    Event.checkEnv b ∉ dbEvents inv r := by
  cases hi : inv.isEmpty <;> cases r <;> simp [dbEvents, hi]

theorem repair_notin_storeEvents (x : List Nat) (b : Bool) :
    Event.repair x ∉ storeEvents b := by
  cases b <;> simp [storeEvents]

theorem repair_notin_envEvents (x : List Nat) (b : Bool) :
    Event.repair x ∉ envEvents b := by
  cases b <;> simp [envEvents]

theorem repair_mem_dbEvents (x inv : List Nat) (r : Bool) :
    Event.repair x ∈ dbEvents inv r ↔ (inv ≠ [] ∧ r = true ∧ x = inv) := by
  cases hi : inv.isEmpty <;> cases r <;>
    simp_all [dbEvents, List.isEmpty_eq_false, List.isEmpty_eq_true]

theorem checkDb_notin_storeEvents (x : List Nat) (b : Bool) :
    Event.checkDb x ∉ storeEvents b := by
  cases b <;> simp [storeEvents]

theorem checkDb_notin_envEvents (x : List Nat) (b : Bool) :
    Event.checkDb x ∉ envEvents b := by
  cases b <;> simp [envEvents]

theorem logWarning_notin_storeEvents (m : String) (b : Bool) :
    Event.logWarning m ∉ storeEvents b := by
  cases b <;> simp [storeEvents]

theorem logWarning_mem_envEvents (m : String) (b : Bool) :
    Event.logWarning m ∈ envEvents b ↔ (b = false ∧ m = envWarning) := by
  cases b <;> simp [envEvents, eq_comm]

theorem logWarning_mem_dbEvents (m : String) (inv : List Nat) (r : Bool) :
    Event.logWarning m ∈ dbEvents inv r ↔
      (inv ≠ [] ∧ (m = mismatchWarning ∨ (r = false ∧ m = noAutoRepairWarning))) := by
  cases hi : inv.isEmpty
  · have hne : inv ≠ [] := by simp_all
    cases r <;> simp [dbEvents, hi, hne]
  · have hnil : inv = [] := by simp_all
    subst hnil
    cases r <;> simp [dbEvents]

theorem countP_isEnvCheck_storeEvents (b : Bool) :
    (storeEvents b).countP isEnvCheck = 0 := by
  cases b <;> simp [storeEvents, isEnvCheck]

theorem countP_isEnvCheck_envEvents (b : Bool) :
    (envEvents b).countP isEnvCheck = 1 := by
  cases b <;> simp [envEvents, isEnvCheck]

theorem countP_isEnvCheck_dbEvents (inv : List Nat) (r : Bool) :
    (dbEvents inv r).countP isEnvCheck = 0 := by
  cases hi : inv.isEmpty <;> cases r <;> simp [dbEvents, hi, isEnvCheck]

theorem loadExtensions_skips_non_py (l : List (String × Bool)) :
    loadExtensions l = loadExtensions (pyEntries l) := by
  induction l with
  | nil => simp [pyEntries]
  | cons p rest ih =>
    obtain ⟨f, s⟩ := p
    by_cases hf : endsIn f ".py" = true
    · have hpy : pyEntries ((f, s) :: rest) = (f, s) :: pyEntries rest := by
        simp [pyEntries, hf]
      rw [hpy]
      cases s
      · simp [loadExtensions, hf]
      · simp [loadExtensions, hf, ih]
    · have hpy : pyEntries ((f, s) :: rest) = pyEntries rest := by
        simp [pyEntries, hf]
      rw [hpy, ← ih]
      simp [loadExtensions, hf]

/-! ## Theorems -/

/-- Claim C7: on entry to the bootstrap sequence, `init_db` runs if and
only if the store file is absent, and the environment check is reached in
both cases. -/
theorem store_init_iff_missing (e : BootEnv) :
    (Event.initDb ∈ (on_ready e).1 ↔ e.storeExists = false) ∧
      Event.checkEnv e.envOk ∈ (on_ready e).1 := by
  have hload := notin_loadExtensions e.extensions Event.initDb (by simp)
  have hload2 : ∀ b, Event.checkEnv b ∉ (loadExtensions e.extensions).1 :=
    fun b => notin_loadExtensions e.extensions (Event.checkEnv b) (by simp)
  constructor
  · cases hc : e.configsOk
    · simp [on_ready, hc, initDb_mem_storeEvents, initDb_notin_envEvents]
    · cases hL : (loadExtensions e.extensions).2.2 <;>
        simp [on_ready, hc, hL, initDb_mem_storeEvents, initDb_notin_envEvents,
          initDb_notin_dbEvents, hload]
  · cases hc : e.configsOk
    · simp [on_ready, hc, checkEnv_mem_envEvents]
    · cases hL : (loadExtensions e.extensions).2.2 <;>
        simp [on_ready, hc, hL, checkEnv_mem_envEvents]

/-- Claim C4: whenever `check_configs` fails, the run logs the dedicated
warning, sleeps the same 30-second backoff, and ends in `os.execv` — the
process image is replaced, the trace ends with the restart, and the
database-consistency stage (`check_db`, and a fortiori `repair`) is never
reached in that run. -/
theorem config_failure_restarts_process (e : BootEnv) (hc : e.configsOk = false) :
    (on_ready e).2 = BootOutcome.restart ∧
      (∃ p, (on_ready e).1 =
        p ++ [Event.checkConfigs false, Event.logWarning configsWarning,
              Event.sleep 30, Event.execvRestart]) ∧
      (∀ x, Event.checkDb x ∉ (on_ready e).1) ∧
      (∀ x, Event.repair x ∉ (on_ready e).1) := by
  refine ⟨?_, ⟨storeEvents e.storeExists ++ [Event.checkUpgrade] ++ envEvents e.envOk, ?_⟩,
      fun x => ?_, fun x => ?_⟩
  · simp [on_ready, hc]
  · simp [on_ready, hc]
  · simp [on_ready, hc, checkDb_notin_storeEvents, checkDb_notin_envEvents]
  · simp [on_ready, hc, repair_notin_storeEvents, repair_notin_envEvents]

/-- Witness for `config_failure_restarts_process` at a concrete run whose
configuration check fails. -/
theorem config_failure_restarts_process_witness :
    (on_ready ⟨true, true, false, [5], true, [("a.py", true)]⟩).2 = BootOutcome.restart ∧
      Event.checkDb [5] ∉ (on_ready ⟨true, true, false, [5], true, [("a.py", true)]⟩).1 := by
  have h := config_failure_restarts_process ⟨true, true, false, [5], true, [("a.py", true)]⟩ rfl
  exact ⟨h.1, h.2.2.1 [5]⟩

/-- Claim C5: at the database-consistency step (reached when the config
check passed), `auto_repair_mismatched_clients` is invoked exactly on the
invalid records returned by `check_db`, and only when that set is
non-empty and the auto-repair option is enabled; when the option is
disabled only the warning is logged and no repair (store mutation)
happens; when the set is empty neither the mismatch warning nor the
disabled-repair warning nor any repair occurs. -/
theorem db_consistency_repair_policy (e : BootEnv) (hc : e.configsOk = true) :
    (∀ x, Event.repair x ∈ (on_ready e).1 ↔
        (e.invalidClients ≠ [] ∧ e.autoRepair = true ∧ x = e.invalidClients)) ∧
      (e.invalidClients ≠ [] → e.autoRepair = false →
        Event.logWarning noAutoRepairWarning ∈ (on_ready e).1) ∧
      (e.invalidClients = [] →
        Event.logWarning mismatchWarning ∉ (on_ready e).1 ∧
          Event.logWarning noAutoRepairWarning ∉ (on_ready e).1) := by
  have hload : ∀ x, Event.repair x ∉ (loadExtensions e.extensions).1 :=
    fun x => notin_loadExtensions e.extensions (Event.repair x) (by simp)
  have hloadW : ∀ m, Event.logWarning m ∉ (loadExtensions e.extensions).1 :=
    fun m => notin_loadExtensions e.extensions (Event.logWarning m) (by simp)
  refine ⟨fun x => ?_, fun hne har => ?_, fun hnil => ?_⟩
  · cases hL : (loadExtensions e.extensions).2.2 <;>
      simp [on_ready, hc, hL, repair_notin_storeEvents, repair_notin_envEvents,
        repair_mem_dbEvents, hload]
  · cases hL : (loadExtensions e.extensions).2.2 <;>
      simp [on_ready, hc, hL, logWarning_notin_storeEvents, logWarning_mem_envEvents,
        logWarning_mem_dbEvents, hne, har]
  · constructor <;>
      (cases hL : (loadExtensions e.extensions).2.2 <;>
        simp [on_ready, hc, hL, logWarning_notin_storeEvents, logWarning_mem_envEvents,
          logWarning_mem_dbEvents, hloadW, hnil, mismatchWarning, noAutoRepairWarning,
          envWarning])

/-- Witness for `db_consistency_repair_policy`: with invalid records
`[7, 9]` and auto repair enabled the repair runs on exactly `[7, 9]`; with
auto repair disabled the dedicated warning is logged; with no invalid
records the mismatch warning is absent. -/
theorem db_consistency_repair_policy_witness :
    Event.repair [7, 9] ∈ (on_ready ⟨true, true, true, [7, 9], true, []⟩).1 ∧
      Event.logWarning noAutoRepairWarning
        ∈ (on_ready ⟨true, true, true, [7, 9], false, []⟩).1 ∧
      Event.logWarning mismatchWarning
        ∉ (on_ready ⟨true, true, true, [], true, []⟩).1 := by
  refine ⟨?_, ?_, ?_⟩
  · exact ((db_consistency_repair_policy ⟨true, true, true, [7, 9], true, []⟩ rfl).1
      [7, 9]).mpr ⟨by decide, rfl, rfl⟩
  · exact (db_consistency_repair_policy ⟨true, true, true, [7, 9], false, []⟩ rfl).2.1
      (by decide) rfl
  · exact ((db_consistency_repair_policy ⟨true, true, true, [], true, []⟩ rfl).2.2 rfl).1

/-- Claim C1, counterexample: with three discoverable extensions of which
the second fails to load, the recorded results are `[ok, err]` — not the
claimed `[Ok, Err, Ok]` — and the run crashes before reaching readiness:
the exception raised by `load_extension` propagates out of `on_ready`, so
the third extension is never attempted and `tree.sync` never runs. -/
theorem load_failure_isolation_cex :
    (on_ready ⟨true, true, true, [], false,
        [("a.py", true), ("b.py", false), ("c.py", true)]⟩).2
      = BootOutcome.crashed [LoadResult.ok, LoadResult.err] ∧
      (on_ready ⟨true, true, true, [], false,
          [("a.py", true), ("b.py", false), ("c.py", true)]⟩).2
        ≠ BootOutcome.ready [LoadResult.ok, LoadResult.err, LoadResult.ok] := by
  decide

/-- Claim C1, amended: a load failure of one extension aborts the loading
of the remaining extensions.  If the `.py` listing splits as `pre` (all
loading successfully) followed by a failing file `f`, then the run attempts
exactly the loads of `pre` plus the failing one, records
`pre.map ok ++ [err]`, and ends in `crashed` — readiness is not reached in
that run. -/
theorem extension_load_failure_aborts_rest (e : BootEnv)
    (pre post : List (String × Bool)) (f : String)
    (hc : e.configsOk = true)
    (hsplit : pyEntries e.extensions = pre ++ (f, false) :: post)
    (hpre : ∀ p ∈ pre, p.2 = true) :
    (on_ready e).2
        = BootOutcome.crashed (pre.map (fun _ => LoadResult.ok) ++ [LoadResult.err]) ∧
      attemptedLoads (on_ready e).1 =
        pre.map (fun p => ("cogs." ++ dropLastChars 3 p.1, LoadResult.ok))
          ++ [("cogs." ++ dropLastChars 3 f, LoadResult.err)] := by
  have hpre2 : ∀ p ∈ pre, endsIn p.1 ".py" = true ∧ p.2 = true := by
    intro p hp
    have hmem : p ∈ pyEntries e.extensions := by
      rw [hsplit]; exact List.mem_append_left _ hp
    exact ⟨(List.mem_filter.mp hmem).2, hpre p hp⟩
  have hf : endsIn f ".py" = true := by
    have hmem : (f, false) ∈ pyEntries e.extensions := by
      rw [hsplit]; exact List.mem_append_right _ (List.mem_cons_self _ _)
    exact (List.mem_filter.mp hmem).2
  have hload : loadExtensions e.extensions =
      (pre.map (fun p => Event.loadExtension ("cogs." ++ dropLastChars 3 p.1) LoadResult.ok)
          ++ [Event.loadExtension ("cogs." ++ dropLastChars 3 f) LoadResult.err],
        pre.map (fun _ => LoadResult.ok) ++ [LoadResult.err], false) := by
    rw [loadExtensions_skips_non_py, hsplit,
      loadExtensions_first_failure pre f post hpre2 hf]
  constructor
  · simp [on_ready, hc, hload]
  · simp [on_ready, hc, hload, attemptedLoads_append, attemptedLoads_storeEvents,
      attemptedLoads_envEvents, attemptedLoads_dbEvents, attemptedLoads_map_load,
      attemptedLoads, loadOf]

/-- Witness for `extension_load_failure_aborts_rest` on the three-cog
scenario with the second cog failing. -/
theorem extension_load_failure_aborts_rest_witness :
    (on_ready ⟨false, true, true, [], true,
        [("a.py", true), ("b.py", false), ("c.py", true)]⟩).2
      = BootOutcome.crashed [LoadResult.ok, LoadResult.err] ∧
      attemptedLoads (on_ready ⟨false, true, true, [], true,
          [("a.py", true), ("b.py", false), ("c.py", true)]⟩).1
        = [("cogs.a", LoadResult.ok), ("cogs.b", LoadResult.err)] := by
  have h := extension_load_failure_aborts_rest
    ⟨false, true, true, [], true, [("a.py", true), ("b.py", false), ("c.py", true)]⟩
    [("a.py", true)] [("c.py", true)] "b.py" rfl (by decide) (by decide)
  refine ⟨?_, ?_⟩
  · rw [h.1]; decide
  · rw [h.2]; decide

/-- Claim C10: when loading succeeds, the extensions loaded at startup are
exactly the `./cogs` directory entries whose names end in `.py`, in
directory-listing order, each loaded under `cogs.` plus the name with the
`.py` suffix stripped; all other directory entries are ignored. -/
theorem startup_loads_py_files (e : BootEnv) (hc : e.configsOk = true)
    (hall : ∀ p ∈ pyEntries e.extensions, p.2 = true) :
    attemptedLoads (on_ready e).1 =
        (pyEntries e.extensions).map
          (fun p => ("cogs." ++ dropLastChars 3 p.1, LoadResult.ok)) ∧
      (on_ready e).2
        = BootOutcome.ready ((pyEntries e.extensions).map (fun _ => LoadResult.ok)) := by
  have h1 : ∀ p ∈ e.extensions, endsIn p.1 ".py" = true → p.2 = true :=
    fun p hp hpy => hall p (List.mem_filter.mpr ⟨hp, hpy⟩)
  have hload := loadExtensions_all_ok e.extensions h1
  constructor
  · simp [on_ready, hc, hload, attemptedLoads_append, attemptedLoads_storeEvents,
      attemptedLoads_envEvents, attemptedLoads_dbEvents, attemptedLoads_map_load,
      attemptedLoads, loadOf]
  · simp [on_ready, hc, hload]

/-- Witness for `startup_loads_py_files`: a listing with two `.py` files
and a text file loads exactly the two cogs, in order, under their stripped
names. -/
theorem startup_loads_py_files_witness :
    attemptedLoads (on_ready ⟨true, true, true, [], false,
        [("alpha.py", true), ("notes.txt", false), ("beta.py", true)]⟩).1
      = [("cogs.alpha", LoadResult.ok), ("cogs.beta", LoadResult.ok)] ∧
      (on_ready ⟨true, true, true, [], false,
          [("alpha.py", true), ("notes.txt", false), ("beta.py", true)]⟩).2
        = BootOutcome.ready [LoadResult.ok, LoadResult.ok] := by
  have h := startup_loads_py_files
    ⟨true, true, true, [], false,
      [("alpha.py", true), ("notes.txt", false), ("beta.py", true)]⟩
    rfl (by decide)
  refine ⟨?_, ?_⟩
  · rw [h.1]; decide
  · rw [h.2]; decide

/-- Claim C2, counterexample: in a run whose environment check fails (and
everything else is benign), the whole trace contains exactly one
invocation of `check_env` — the claimed second check after the backoff
never happens. -/
theorem env_second_check_cex :
    (on_ready ⟨true, false, true, [], false, []⟩).1.countP isEnvCheck = 1 ∧
      ¬ 2 ≤ (on_ready ⟨true, false, true, [], false, []⟩).1.countP isEnvCheck := by
  decide

/-- Claim C2, amended: whenever `check_env` fails, the orchestrator logs
the warning, sleeps the fixed 30-second backoff, re-reads the environment
with `load_dotenv`, and then proceeds directly to the configuration stage
without running the environment check a second time: every run performs
exactly one environment check. -/
theorem env_failure_single_check (e : BootEnv) (h : e.envOk = false) :
    (∃ p rest, (on_ready e).1 =
        p ++ [Event.checkEnv false, Event.logWarning envWarning, Event.sleep 30,
              Event.reloadDotenv, Event.checkConfigs e.configsOk] ++ rest) ∧
      (on_ready e).1.countP isEnvCheck = 1 := by
  constructor
  · cases hc : e.configsOk
    · exact ⟨storeEvents e.storeExists ++ [Event.checkUpgrade],
        [Event.logWarning configsWarning, Event.sleep 30, Event.execvRestart],
        by simp [on_ready, hc, h, envEvents]⟩
    · cases hL : (loadExtensions e.extensions).2.2
      · exact ⟨storeEvents e.storeExists ++ [Event.checkUpgrade],
          dbEvents e.invalidClients e.autoRepair
            ++ [Event.updatePresence, Event.setTreeErrorHandler]
            ++ (loadExtensions e.extensions).1,
          by simp [on_ready, hc, h, hL, envEvents]⟩
      · exact ⟨storeEvents e.storeExists ++ [Event.checkUpgrade],
          dbEvents e.invalidClients e.autoRepair
            ++ [Event.updatePresence, Event.setTreeErrorHandler]
            ++ (loadExtensions e.extensions).1
            ++ [Event.logBotOnline, Event.treeSync, Event.logSyncSummary],
          by simp [on_ready, hc, h, hL, envEvents]⟩
  · have hen : (envEvents e.envOk).countP isEnvCheck = 1 := countP_isEnvCheck_envEvents _
    cases hc : e.configsOk
    · simp [on_ready, hc, countP_isEnvCheck_storeEvents, hen, isEnvCheck]
    · cases hL : (loadExtensions e.extensions).2.2 <;>
        simp [on_ready, hc, hL, countP_isEnvCheck_storeEvents, hen,
          countP_isEnvCheck_dbEvents, countP_isEnvCheck_loadExtensions, isEnvCheck]

/-- Witness for `env_failure_single_check` at a concrete run whose
environment check fails. -/
theorem env_failure_single_check_witness :
    (on_ready ⟨false, false, true, [4], true, [("x.py", true)]⟩).1.countP isEnvCheck = 1 :=
  (env_failure_single_check ⟨false, false, true, [4], true, [("x.py", true)]⟩ rfl).2

/-- Claim C3, counterexample: the status endpoint's response is the very
same string whether the bootstrap sequence has completed or not, so the
payload is not determined by the Readiness Flag and cannot report
"operational" in one state and "starting" in the other. -/
theorem status_endpoint_ignores_readiness_cex :
    handle_web true = handle_web false :=
  rfl

/-- Claim C3, amended: for every request, whatever the readiness state,
the status endpoint returns the one fixed HTML status page (which always
announces the bot as running); the response does not depend on whether the
bootstrap sequence has completed. -/
theorem status_endpoint_returns_fixed_page (b : Bool) :
    handle_web b = statusHtml :=
  rfl

/-- Claim C6: in every execution of the supervisor's `main`, the web
runner's cleanup is the last event before the process exits — it runs both
when the bot task returns normally and when it raises, and the exception
(if any) still propagates afterwards. -/
theorem main_releases_listener_on_all_paths (botRaises : Bool) :
    MainEvent.webCleanup ∈ (main botRaises).1 ∧
      (main botRaises).1.getLast? = some MainEvent.webCleanup ∧
      (main botRaises).2 = botRaises := by
  cases botRaises <;> exact ⟨by decide, rfl, rfl⟩

/-- Claim C8: every error actually raised by an interactive administrative
command (so not a `CommandNotFound`, which means no command ran at all) is
echoed back to the invoking operator, and a warning-level log entry
containing the same message is written; likewise for application-command
errors handled by `on_tree_error`. -/
theorem admin_errors_echoed_and_logged (notFound : Bool) (msg : String)
    (h : notFound = false) :
    (on_command_error notFound msg).echoed = some msg ∧
      (∃ p, (on_command_error notFound msg).logged
        = some (LogLevel.warning, p ++ msg)) ∧
      (on_tree_error msg).echoed = some msg ∧
      (∃ p, (on_tree_error msg).logged = some (LogLevel.warning, p ++ msg)) := by
  subst h
  exact ⟨rfl, ⟨_, rfl⟩, rfl, ⟨_, rfl⟩⟩

/-- Witness for `admin_errors_echoed_and_logged` at a concrete error. -/
theorem admin_errors_echoed_and_logged_witness :
    (on_command_error false "boom").echoed = some "boom" ∧
      (∃ p, (on_command_error false "boom").logged
        = some (LogLevel.warning, p ++ "boom")) ∧
      (on_tree_error "boom").echoed = some "boom" ∧
      (∃ p, (on_tree_error "boom").logged
        = some (LogLevel.warning, p ++ "boom")) :=
  admin_errors_echoed_and_logged false "boom" rfl

/-- Claim C9: when the invoking message has no attachment whose filename
ends in `.db`, `upload_data` raises an uncaught `IndexError` and the
persisted store is left unchanged; when such attachments exist, the store
content is replaced wholesale by the raw bytes of the first of them. -/
theorem upload_data_spec (store : List Nat) (atts : List Attachment) :
    ((∀ a ∈ atts, endsIn a.filename ".db" = false) →
        upload_data store atts = (store, Except.error "IndexError")) ∧
      (∀ a rest, dbAttachments atts = a :: rest →
        upload_data store atts = (a.content, Except.ok ())) := by
  constructor
  · intro h
    have hnil : dbAttachments atts = [] := by
      simp only [dbAttachments, List.filter_eq_nil_iff]
      intro a ha
      simp [h a ha]
    unfold upload_data
    rw [hnil]
  · intro a rest hcons
    unfold upload_data
    rw [hcons]

/-- Witness for `upload_data_spec`: a message with only a text attachment
leaves the store unchanged and errors; a message with two `.db`
attachments overwrites the store with the bytes of the first. -/
theorem upload_data_spec_witness :
    upload_data [1, 2] [⟨"notes.txt", [9]⟩] = ([1, 2], Except.error "IndexError") ∧
      upload_data [1, 2] [⟨"a.txt", [7]⟩, ⟨"new.db", [3, 4]⟩, ⟨"old.db", [5]⟩]
        = ([3, 4], Except.ok ()) := by
  constructor
  · exact (upload_data_spec [1, 2] [⟨"notes.txt", [9]⟩]).1 (by decide)
  · exact (upload_data_spec [1, 2]
      [⟨"a.txt", [7]⟩, ⟨"new.db", [3, 4]⟩, ⟨"old.db", [5]⟩]).2
      ⟨"new.db", [3, 4]⟩ [⟨"old.db", [5]⟩] (by decide)

end Tweetcord
